import Mathlib

/-!
Verification of the Seltra prompt-orchestration worker: a shallow embedding of
the response-extraction and policy-enforcement pipeline of the Cloudflare
worker sources (the `/generate` and `/chat` endpoint handlers, the
`searchGoogle` augmenter, and the post-generation safety filter), together
with theorems settling the specification's claims about it.

Strings are modelled as `List Char`.  The JavaScript regular expressions of
the source are translated pattern by pattern into explicit matching functions
with JavaScript semantics: leftmost match, greedy and lazy quantifiers as in
the source patterns, and ASCII case folding for the `/i` flag.
-/

namespace Seltra

/-- Strings of the embedded program, as lists of characters. -/
abbrev Str := List Char

/-- ASCII lower-casing, the case folding performed by the `/i` regex flag on
the ASCII-only patterns of the source. -/
def lowc (c : Char) : Char :=
  if 65 ≤ c.toNat ∧ c.toNat ≤ 90 then Char.ofNat (c.toNat + 32) else c

/-- The character class `\s` of JavaScript regular expressions, which is also
the character set removed by `String.prototype.trim`: tab, line feed,
vertical tab, form feed, carriage return, space, no-break space, ogham space
mark, the U+2000-U+200A spaces, line separator, paragraph separator, narrow
no-break space, medium mathematical space, ideographic space, and the BOM. -/
def jsWs (c : Char) : Bool :=
  (c.toNat = 9) || (c.toNat = 10) || (c.toNat = 11) || (c.toNat = 12) ||
  (c.toNat = 13) || (c.toNat = 32) || (c.toNat = 160) || (c.toNat = 5760) ||
  (8192 ≤ c.toNat && c.toNat ≤ 8202) ||
  (c.toNat = 8232) || (c.toNat = 8233) || (c.toNat = 8239) ||
  (c.toNat = 8287) || (c.toNat = 12288) || (c.toNat = 65279)

/-- `s.replace(/\n/g, ' ')` of the clean-up step. -/
def replNl (s : Str) : Str :=
  s.map fun c => if c = '\n' then ' ' else c

/-- Worker for `collapseWs`; the flag records whether the previous character
was whitespace (so the current run has already emitted its single space). -/
def collapseAux : Bool → Str → Str
  | _, [] => []
  | prevWs, c :: cs =>
    if jsWs c then
      if prevWs then collapseAux true cs else ' ' :: collapseAux true cs
    else c :: collapseAux false cs

/-- `s.replace(/\s+/g, ' ')`: every maximal run of whitespace becomes a
single space. -/
def collapseWs (s : Str) : Str := collapseAux false s

/-- `String.prototype.trim`: strip leading and trailing whitespace. -/
def trimJs (s : Str) : Str := List.rdropWhile jsWs (List.dropWhile jsWs s)

/-- The clean-up step `code.replace(/\n/g, ' ').replace(/\s+/g, ' ').trim()`
(the spec's normalization). -/
def cleanup (s : Str) : Str := trimJs (collapseWs (replNl s))

/-- The protocol-literal prefix every valid bookmarklet starts with. -/
def protoLit : Str := "javascript:".data

/-- The scope-refusal sentinel token. -/
def sentinelTok : Str := "SITE_SPECIFIC_REQUEST".data

/-- `String.prototype.includes pat`: `pat` occurs contiguously in the
string (case-sensitive). -/
def containsTok (pat : Str) : Str → Bool
  | [] => pat.isPrefixOf []
  | c :: cs => pat.isPrefixOf (c :: cs) || containsTok pat cs

/-- Match a literal pattern (given lower-case) case-insensitively at the
start of the input; return the rest of the input on success. -/
def litCI : Str → Str → Option Str
  | [], s => some s
  | _ :: _, [] => none
  | p :: ps, c :: cs => if lowc c = p then litCI ps cs else none

/-- Scan left to right for the first position where `here` succeeds: the
leftmost-match rule of JavaScript regex search, and also the semantics of a
lazy `[\s\S]*?` followed by the continuation `here`. -/
def firstSome (here : Str → Option Str) : Str → Option Str
  | [] => here []
  | c :: cs =>
    match here (c :: cs) with
    | some r => some r
    | none => firstSome here cs

/-- Consume an optional trailing semicolon: the regex suffix `;?`. -/
def optSemi (t : Str) : Str :=
  match litCI ";".data t with
  | some r => r
  | none => t

/-- Closing part `\}\)\s*\(\);?` of the IIFE and arrow patterns. -/
def iifeClose (t : Str) : Option Str := do
  let t1 ← litCI "\x7d)".data t
  let t2 ← litCI "()".data (t1.dropWhile jsWs)
  pure (optSemi t2)

/-- Closing part `\);?` of the void pattern. -/
def voidClose (t : Str) : Option Str := do
  let t1 ← litCI ")".data t
  pure (optSemi t1)

/-- Pattern 1, `/javascript:\s*\(function\(\)\s*\{[\s\S]*?\}\)\s*\(\);?/i`,
anchored at the start of `s`; returns the matched text. -/
def p1Here (s : Str) : Option Str := do
  let r1 ← litCI "javascript:".data s
  let r2 ← litCI "(function()".data (r1.dropWhile jsWs)
  let r3 ← litCI "\x7b".data (r2.dropWhile jsWs)
  let r4 ← firstSome iifeClose r3
  pure (s.take (s.length - r4.length))

/-- Pattern 2, `/javascript:\s*\(\(\)\s*=>\s*\{[\s\S]*?\}\)\s*\(\);?/i`,
anchored at the start of `s`. -/
def p2Here (s : Str) : Option Str := do
  let r1 ← litCI "javascript:".data s
  let r2 ← litCI "(()".data (r1.dropWhile jsWs)
  let r3 ← litCI "=>".data (r2.dropWhile jsWs)
  let r4 ← litCI "\x7b".data (r3.dropWhile jsWs)
  let r5 ← firstSome iifeClose r4
  pure (s.take (s.length - r5.length))

/-- Pattern 3, `/javascript:\s*void\s*\([\s\S]*?\);?/i`, anchored at the
start of `s`. -/
def p3Here (s : Str) : Option Str := do
  let r1 ← litCI "javascript:".data s
  let r2 ← litCI "void".data (r1.dropWhile jsWs)
  let r3 ← litCI "(".data (r2.dropWhile jsWs)
  let r4 ← firstSome voidClose r3
  pure (s.take (s.length - r4.length))

/-- Backtick, double-quote, single-quote characters. -/
def btick : Char := Char.ofNat 96

def dquo : Char := Char.ofNat 34

def squo : Char := Char.ofNat 39

/-- The character class `[^\s`"'\n]` of pattern 4. -/
def p4cls (c : Char) : Bool :=
  !(jsWs c) && !(c = btick) && !(c = dquo) && !(c = squo) && !(c = '\n')

/-- Pattern 4, `/javascript:[^\s`"'\n]+/i`, anchored at the start of `s`. -/
def p4Here (s : Str) : Option Str := do
  let r1 ← litCI "javascript:".data s
  let run := r1.takeWhile p4cls
  if run.isEmpty then none else pure (s.take (11 + run.length))

/-- Patterns 5-7: a quoted bookmarklet `q(javascript:[^q]+)q` for a quote
character `q`; returns capture group 1 (the text between the quotes). -/
def quotedHere (q : Char) (s : Str) : Option Str := do
  let r1 ← litCI [q] s
  let r2 ← litCI "javascript:".data r1
  let body := r2.takeWhile fun c => !(c = q)
  match body, r2.drop body.length with
  | [], _ => none
  | _ :: _, c :: _ => if c = q then some (r1.take (11 + body.length)) else none
  | _ :: _, [] => none

/-- The pattern list of the `/generate` extraction, applied in source order;
each entry is searched over the whole reply (leftmost match), and the first
pattern that matches anywhere wins, yielding `match[1] || match[0]`. -/
def patternLoop (c : Str) : Option Str :=
  (firstSome p1Here c).orElse fun _ =>
  (firstSome p2Here c).orElse fun _ =>
  (firstSome p3Here c).orElse fun _ =>
  (firstSome p4Here c).orElse fun _ =>
  (firstSome (quotedHere btick) c).orElse fun _ =>
  (firstSome (quotedHere dquo) c).orElse fun _ =>
  firstSome (quotedHere squo) c

/-- The lazy body `([\s\S]*?)` up to the closing triple backtick: the
characters before the first occurrence of ``` in `s`, or `none` when no
closing fence exists. -/
def cbBody : Str → Option Str
  | [] => none
  | c :: cs =>
    if ("```".data).isPrefixOf (c :: cs) then some []
    else (cbBody cs).map fun b => c :: b

/-- Continuation of the fenced-block pattern after the optional language
tag: `\s*([\s\S]*?)```· -/
def cbCont (r : Str) : Option Str := cbBody (r.dropWhile jsWs)

/-- The `/generate` fenced-block pattern
`/```(?:javascript|js)?\s*([\s\S]*?)```/i` anchored at the start of `s`,
with the alternation backtracking of the optional language tag; returns
capture group 1. -/
def cbHere (s : Str) : Option Str :=
  match litCI "```".data s with
  | none => none
  | some r1 =>
    match (litCI "javascript".data r1).bind cbCont with
    | some g => some g
    | none =>
      match (litCI "js".data r1).bind cbCont with
      | some g => some g
      | none => cbCont r1

/-- Continuation of the `/chat` fenced-block pattern after the optional
language tag: `\s*(javascript:\s*[\s\S]*?)```· Returns capture group 1,
which starts at the protocol literal as it appears in the input. -/
def chatCont (r : Str) : Option Str :=
  let r2 := r.dropWhile jsWs
  match litCI "javascript:".data r2 with
  | none => none
  | some r3 =>
    let r4 := r3.dropWhile jsWs
    match cbBody r4 with
    | none => none
    | some body => some (r2.take (r2.length - r4.length + body.length))

/-- The `/chat` fenced-block pattern
`/```(?:javascript|js)?\s*(javascript:\s*[\s\S]*?)```/i` anchored at the
start of `s`. -/
def chatHere (s : Str) : Option Str :=
  match litCI "```".data s with
  | none => none
  | some r1 =>
    match (litCI "javascript".data r1).bind chatCont with
    | some g => some g
    | none =>
      match (litCI "js".data r1).bind chatCont with
      | some g => some g
      | none => chatCont r1

/-- The bookmarklet wrap of the fenced-block fallback:
``code = `javascript:(function(){${extracted}})();` `` applied after
`extracted.replace(/\n/g, ' ').replace(/\s+/g, ' ')`. -/
def wrapBookmarklet (e : Str) : Str :=
  "javascript:(function()\x7b".data ++ collapseWs (replNl e) ++ "\x7d)();".data

/-- The fenced-block fallback applied to the trimmed fence content: keep it
when it already starts with the protocol literal, wrap it otherwise. -/
def wrapOrKeep (e : Str) : Str :=
  if protoLit.isPrefixOf e then e else wrapBookmarklet e

/-- Second stage of the `/generate` extraction, applied to the value of
`code` after the pattern loop: the repeated `startsWith` check and the
fenced-block fallback. -/
def extractStep2 (code1 : Str) : Str :=
  if protoLit.isPrefixOf code1 then code1
  else
    match firstSome cbHere code1 with
    | none => code1
    | some g => wrapOrKeep (trimJs g)

/-- The `/generate` extraction: the `startsWith` short-circuit, then the
seven structural patterns, then the fenced-block fallback, exactly in the
source's order (part_001 lines 599-634). -/
def extractCode (code0 : Str) : Str :=
  if protoLit.isPrefixOf code0 then code0
  else extractStep2 ((patternLoop code0).getD code0)

/-- Anchored test of the alternative `fetch\s*\(` of the safety-filter
network regex. -/
def fetchHere (s : Str) : Option Str :=
  match litCI "fetch".data s with
  | none => none
  | some r => litCI "(".data (r.dropWhile jsWs)

/-- Anchored test of `/fetch\s*\(|XMLHttpRequest|\$\.ajax/i`. -/
def netHere (s : Str) : Option Str :=
  (fetchHere s).orElse fun _ =>
  (litCI "xmlhttprequest".data s).orElse fun _ =>
  litCI "$.ajax".data s

/-- `/fetch\s*\(|XMLHttpRequest|\$\.ajax/i.test(code)`. -/
def netTest (s : Str) : Bool := (firstSome netHere s).isSome

/-- Anchored test of
`/api|auth|token|session|identify|internal|private/i`. -/
def kwHere (s : Str) : Option Str :=
  (litCI "api".data s).orElse fun _ =>
  (litCI "auth".data s).orElse fun _ =>
  (litCI "token".data s).orElse fun _ =>
  (litCI "session".data s).orElse fun _ =>
  (litCI "identify".data s).orElse fun _ =>
  (litCI "internal".data s).orElse fun _ =>
  litCI "private".data s

/-- `/api|auth|token|session|identify|internal|private/i.test(code)`. -/
def kwTest (s : Str) : Bool := (firstSome kwHere s).isSome

/-- The post-generation safety filter of `/generate` (part_001 line 640):
flag when the network regex AND the keyword regex both match. -/
def auditFlags (s : Str) : Bool := netTest s && kwTest s

/-- Body of the `/generate` response on the success path. -/
structure GenerateResponse where
  code : Str
  siteSpecific : Bool
deriving DecidableEq, Repr

/-- The `/generate` post-completion processing (part_001 lines 586-652):
trim the model content, refuse on the sentinel, extract, clean up, and run
the post-generation safety filter.  (The part_000 variant is identical
except that it lacks the final filter.) -/
def generateHandleReply (content : Str) : GenerateResponse :=
  if trimJs content == sentinelTok || containsTok sentinelTok (trimJs content) then
    ⟨[], true⟩
  else if auditFlags (cleanup (extractCode (trimJs content))) then ⟨[], true⟩
  else ⟨cleanup (extractCode (trimJs content)), false⟩

/-- Body of the `/chat` response. -/
structure ChatResponse where
  reply : Str
  hasCode : Bool
  code : Str
deriving DecidableEq, Repr

/-- The `/chat` post-completion processing of part_000 lines 161-185 and
part_002 lines 224-248: extract a fenced bookmarklet, clean it up, and
return it with the raw reply; there is no sentinel check and no safety
filter on this path. -/
def chatHandleReply (reply : Str) : ChatResponse :=
  match firstSome chatHere reply with
  | some g => ⟨reply, true, cleanup g⟩
  | none => ⟨reply, false, []⟩

/-- Message roles of the conversational endpoint. -/
inductive Role
  | user
  | assistant
deriving DecidableEq, Repr

/-- A conversation message. -/
structure ChatMsg where
  role : Role
  content : Str
deriving DecidableEq, Repr

/-- What a handler does after reading the request body and before any
further processing: report an invalid request (HTTP 400, no network
activity), or proceed into the network section of the handler (the optional
search call followed by the completion call). -/
inductive PreOutcome
  | invalidRequest
  | networkCompletion (withSearch : Bool)
deriving DecidableEq, Repr

/-- `[...messages].reverse().find(m => m.role === 'user')?.content || ''`. -/
def lastUserContent (ms : List ChatMsg) : Str :=
  (((ms.reverse).find? fun m => m.role == Role.user).map ChatMsg.content).getD []

/-- The search-trigger vocabulary of the part_000 variant:
`/how to|what is|find|search|look up|api|documentation|example|tutorial/i`. -/
def chatTriggerWords : List Str :=
  ["how to".data, "what is".data, "find".data, "search".data, "look up".data,
   "api".data, "documentation".data, "example".data, "tutorial".data]

/-- Test of an alternation of case-insensitive literals anywhere in `s`. -/
def regexAnyCI (pats : List Str) (s : Str) : Bool :=
  pats.any fun p => (firstSome (litCI p) s).isSome

/-- The `/chat` handler up to its first network call (part_000 lines
72-91): the `!messages || messages.length === 0` guard returns the
`'No messages provided'` 400 before any network request; otherwise the
handler proceeds to the network section, searching first when the trigger
regex matches the last user message. -/
def chatPre : Option (List ChatMsg) → PreOutcome
  | none => PreOutcome.invalidRequest
  | some [] => PreOutcome.invalidRequest
  | some (m :: ms) =>
    PreOutcome.networkCompletion (regexAnyCI chatTriggerWords (lastUserContent (m :: ms)))

/-- The `/generate` handler up to its first network call (part_000 lines
196-205): there is no prompt-presence guard at all; a missing prompt is
coerced by JavaScript to the string `"undefined"` inside the trigger-regex
test and the handler proceeds straight to the network section. -/
def genPre (prompt : Option Str) : PreOutcome :=
  PreOutcome.networkCompletion (regexAnyCI chatTriggerWords (prompt.getD "undefined".data))

/-- A search result item of the Google customsearch response. -/
structure SearchItem where
  title : Str
  snippet : Str
  link : Str

/-- What the search transport produced: a thrown error (network failure or
unparsable JSON body), or a parsed body whose `items` field is absent or a
list. -/
inductive SearchFetch
  | throws
  | returns (items : Option (List SearchItem))

/-- The fixed fallback string of the `catch` branch of `searchGoogle`. -/
def searchFailText : Str := "Search failed - proceeding without web context.".data

/-- The fixed empty-result string of `searchGoogle`. -/
def searchEmptyText : Str := "No relevant search results found.".data

/-- One numbered entry of the search-context text. -/
def formatItem (i : Nat) (it : SearchItem) : Str :=
  (Nat.repr (i + 1)).data ++ ". ".data ++ it.title ++ "\n   ".data ++
    it.snippet ++ "\n   URL: ".data ++ it.link

/-- `items.map((item, i) => ...).join('\n\n')`. -/
def formatResults (items : List SearchItem) : Str :=
  List.intercalate "\n\n".data (items.mapIdx fun i it => formatItem i it)

/-- `searchGoogle` (part_000 lines 18-34) as a function of what the
transport produced: every branch returns a plain string, the `catch`
branch absorbing any thrown error. -/
def searchGoogle : SearchFetch → Str
  | SearchFetch.throws => searchFailText
  | SearchFetch.returns none => searchEmptyText
  | SearchFetch.returns (some []) => searchEmptyText
  | SearchFetch.returns (some (it :: rest)) => formatResults (it :: rest)

/-! ### Basic character and whitespace lemmas -/

theorem toNat_ofNat_of_lt {n : Nat} (h : n < 55296) : (Char.ofNat n).toNat = n := by
  rw [Char.ofNat, dif_pos (Or.inl h)]
  rfl

theorem jsWs_lowc (c : Char) : jsWs (lowc c) = jsWs c := by
  unfold lowc
  split
  · rename_i h
    have ht : (Char.ofNat (c.toNat + 32)).toNat = c.toNat + 32 :=
      toNat_ofNat_of_lt (by omega)
    have h1 : jsWs (Char.ofNat (c.toNat + 32)) = false := by
      simp only [jsWs, ht, Bool.or_eq_false_iff, decide_eq_false_iff_not,
        Bool.and_eq_false_iff]
      omega
    have h2 : jsWs c = false := by
      simp only [jsWs, Bool.or_eq_false_iff, decide_eq_false_iff_not,
        Bool.and_eq_false_iff]
      omega
    rw [h1, h2]
  · rfl

/-! ### Normalization: structure of `collapseWs`, `trimJs`, `cleanup` -/

/-- Every whitespace character of the string is a plain space. -/
def wsOnlySpace (s : Str) : Prop := ∀ c ∈ s, jsWs c = true → c = ' '

/-- No two adjacent characters are both whitespace. -/
def noAdjWs (s : Str) : Prop :=
  List.Chain' (fun a b => (jsWs a && jsWs b) = false) s

theorem collapseAux_wsOnly (b : Bool) (s : Str) : wsOnlySpace (collapseAux b s) := by
  induction s generalizing b with
  | nil => intro c hc _; simp [collapseAux] at hc
  | cons d ds ih =>
    intro c hc hws
    simp only [collapseAux] at hc
    by_cases hd : jsWs d
    · rw [if_pos hd] at hc
      cases b with
      | true => exact ih true c hc hws
      | false =>
        simp only [if_neg Bool.false_ne_true, List.mem_cons] at hc
        rcases hc with h | h
        · exact h
        · exact ih true c h hws
    · rw [if_neg hd] at hc
      rcases List.mem_cons.mp hc with h | h
      · subst h; exact absurd hws (by simp [hd])
      · exact ih false c h hws

theorem collapseAux_true_head (s : Str) :
    ∀ c, (collapseAux true s).head? = some c → jsWs c = false := by
  induction s with
  | nil => intro c h; simp [collapseAux] at h
  | cons d ds ih =>
    intro c h
    by_cases hd : jsWs d
    · have hh : collapseAux true (d :: ds) = collapseAux true ds := by
        simp [collapseAux, hd]
      rw [hh] at h
      exact ih c h
    · have hh : collapseAux true (d :: ds) = d :: collapseAux false ds := by
        simp [collapseAux, hd]
      rw [hh] at h
      simp only [List.head?_cons, Option.some_inj] at h
      rw [← h]
      exact eq_false_of_ne_true hd

theorem collapseAux_chain (b : Bool) (s : Str) : noAdjWs (collapseAux b s) := by
  induction s generalizing b with
  | nil => simp [collapseAux, noAdjWs]
  | cons d ds ih =>
    unfold noAdjWs
    simp only [collapseAux]
    by_cases hd : jsWs d
    · rw [if_pos hd]
      cases b with
      | true => exact ih true
      | false =>
        rw [if_neg Bool.false_ne_true, List.chain'_cons']
        refine ⟨fun y hy => ?_, ih true⟩
        have := collapseAux_true_head ds y (Option.mem_def.mp hy)
        simp [this]
    · rw [if_neg hd, List.chain'_cons']
      refine ⟨fun y _ => ?_, ih false⟩
      simp [hd]

theorem collapseAux_id (s : Str) (h1 : wsOnlySpace s) (h2 : noAdjWs s) :
    collapseAux false s = s ∧
      ((∀ c, s.head? = some c → jsWs c = false) → collapseAux true s = s) := by
  induction s with
  | nil => exact ⟨rfl, fun _ => rfl⟩
  | cons d ds ih =>
    have h1' : wsOnlySpace ds := fun c hc => h1 c (List.mem_cons_of_mem d hc)
    have h2' : noAdjWs ds := (List.chain'_cons'.mp h2).2
    have hhead := (List.chain'_cons'.mp h2).1
    obtain ⟨ihf, iht⟩ := ih h1' h2'
    by_cases hd : jsWs d
    · have hsp : d = ' ' := h1 d (List.mem_cons_self d ds) hd
      subst hsp
      have hdsid : collapseAux true ds = ds := by
        apply iht
        intro c hc
        have := hhead c (Option.mem_def.mpr hc)
        simpa [hd] using this
      constructor
      · simp [collapseAux, hd, hdsid]
      · intro hp
        exact absurd hd (by simpa using hp ' ' rfl)
    · have heq : collapseAux false (d :: ds) = d :: ds := by
        simp only [collapseAux, if_neg hd, ihf]
      refine ⟨heq, fun _ => ?_⟩
      simp only [collapseAux, if_neg hd, ihf]

theorem collapseWs_id (s : Str) (h1 : wsOnlySpace s) (h2 : noAdjWs s) :
    collapseWs s = s := (collapseAux_id s h1 h2).1

theorem head?_dropWhile {α : Type} (p : α → Bool) (l : List α) :
    ∀ c, (l.dropWhile p).head? = some c → p c = false := by
  induction l with
  | nil => intro c h; simp at h
  | cons d ds ih =>
    intro c h
    by_cases hd : p d
    · rw [List.dropWhile_cons_of_pos hd] at h
      exact ih c h
    · rw [List.dropWhile_cons_of_neg hd] at h
      simp only [List.head?_cons, Option.some_inj] at h
      rw [← h]
      exact eq_false_of_ne_true hd

theorem dropWhile_eq_self_of_head {α : Type} (p : α → Bool) (l : List α)
    (h : ∀ c, l.head? = some c → p c = false) : l.dropWhile p = l := by
  cases l with
  | nil => rfl
  | cons d ds =>
    have := h d rfl
    rw [List.dropWhile_cons_of_neg (by simp [this])]

theorem trimJs_idem (s : Str) : trimJs (trimJs s) = trimJs s := by
  unfold trimJs
  have hdrop :
      List.dropWhile jsWs (List.rdropWhile jsWs (List.dropWhile jsWs s)) =
        List.rdropWhile jsWs (List.dropWhile jsWs s) := by
    apply dropWhile_eq_self_of_head
    intro c hc
    obtain ⟨r, hr⟩ := List.rdropWhile_prefix jsWs (List.dropWhile jsWs s)
    cases htt : List.rdropWhile jsWs (List.dropWhile jsWs s) with
    | nil => rw [htt] at hc; simp at hc
    | cons a as =>
      rw [htt] at hc
      simp only [List.head?_cons, Option.some_inj] at hc
      rw [htt] at hr
      apply head?_dropWhile jsWs s
      rw [← hr, ← hc]
      simp
  rw [hdrop, List.rdropWhile_idempotent]

theorem trimJs_subset (s : Str) : ∀ c ∈ trimJs s, c ∈ s := by
  intro c hc
  unfold trimJs at hc
  have h1 : c ∈ List.dropWhile jsWs s :=
    (List.rdropWhile_prefix jsWs (List.dropWhile jsWs s)).sublist.subset hc
  exact (List.dropWhile_suffix jsWs).sublist.subset h1

theorem trimJs_chain (s : Str) (h : noAdjWs s) : noAdjWs (trimJs s) := by
  unfold noAdjWs at h ⊢
  have h1 := List.Chain'.suffix h (List.dropWhile_suffix jsWs)
  exact List.Chain'.prefix h1
    (List.rdropWhile_prefix jsWs (List.dropWhile jsWs s))

theorem cleanup_wsOnly (s : Str) : wsOnlySpace (cleanup s) := fun c hc =>
  collapseAux_wsOnly false (replNl s) c (trimJs_subset _ c hc)

theorem cleanup_chain (s : Str) : noAdjWs (cleanup s) :=
  trimJs_chain _ (collapseAux_chain false (replNl s))

theorem replNl_id (t : Str) : '\n' ∉ t → replNl t = t := by
  induction t with
  | nil => intro _; rfl
  | cons d ds ih =>
    intro h
    simp only [List.mem_cons, not_or] at h
    have hd : ¬ d = '\n' := fun hdd => h.1 hdd.symm
    show (if d = '\n' then ' ' else d) :: replNl ds = d :: ds
    rw [if_neg hd, ih h.2]

theorem cleanup_no_nl (s : Str) : '\n' ∉ cleanup s := by
  intro hmem
  have h1 := cleanup_wsOnly s '\n' hmem (by decide)
  exact absurd h1 (by decide)

theorem cleanup_idem (s : Str) : cleanup (cleanup s) = cleanup s := by
  have h1 : replNl (cleanup s) = cleanup s := replNl_id _ (cleanup_no_nl s)
  have h2 : collapseWs (cleanup s) = cleanup s :=
    collapseWs_id _ (cleanup_wsOnly s) (cleanup_chain s)
  show trimJs (collapseWs (replNl (cleanup s))) = cleanup s
  rw [h1, h2]
  exact trimJs_idem _

/-! ### Characterizations of the matching combinators -/

theorem litCI_some_iff (p : Str) :
    ∀ (s r : Str), litCI p s = some r ↔ ∃ t, s = t ++ r ∧ t.map lowc = p := by
  induction p with
  | nil =>
    intro s r
    simp only [litCI, Option.some_inj]
    constructor
    · intro h; exact ⟨[], by simp [h], rfl⟩
    · rintro ⟨t, h1, h2⟩
      have ht : t = [] := by simpa using h2
      subst ht; simpa using h1
  | cons q qs ih =>
    intro s r
    cases s with
    | nil =>
      simp only [litCI]
      constructor
      · intro h; exact absurd h (by simp)
      · rintro ⟨t, h1, h2⟩
        cases t with
        | nil => simp at h2
        | cons a as => simp at h1
    | cons c cs =>
      simp only [litCI]
      by_cases hc : lowc c = q
      · rw [if_pos hc, ih]
        constructor
        · rintro ⟨t, h1, h2⟩
          exact ⟨c :: t, by simp [h1], by simp [h2, hc]⟩
        · rintro ⟨t, h1, h2⟩
          cases t with
          | nil => simp at h2
          | cons a as =>
            simp only [List.cons_append, List.cons_eq_cons] at h1
            simp only [List.map_cons, List.cons_eq_cons] at h2
            exact ⟨as, h1.2, h2.2⟩
      · rw [if_neg hc]
        constructor
        · intro h; exact absurd h (by simp)
        · rintro ⟨t, h1, h2⟩
          cases t with
          | nil => simp at h2
          | cons a as =>
            simp only [List.cons_append, List.cons_eq_cons] at h1
            simp only [List.map_cons, List.cons_eq_cons] at h2
            exact absurd (h1.1 ▸ h2.1) hc

theorem litCI_isSome_iff (p s : Str) :
    (litCI p s).isSome = true ↔ ∃ f r, s = f ++ r ∧ f.map lowc = p := by
  rw [Option.isSome_iff_exists]
  constructor
  · rintro ⟨r, hr⟩
    obtain ⟨t, h1, h2⟩ := (litCI_some_iff p s r).mp hr
    exact ⟨t, r, h1, h2⟩
  · rintro ⟨f, r, h1, h2⟩
    exact ⟨r, (litCI_some_iff p s r).mpr ⟨f, h1, h2⟩⟩

theorem firstSome_isSome_iff (here : Str → Option Str) :
    ∀ s : Str, (firstSome here s).isSome = true ↔
      ∃ a t, a ++ t = s ∧ (here t).isSome = true := by
  intro s
  induction s with
  | nil =>
    simp only [firstSome]
    constructor
    · intro h; exact ⟨[], [], rfl, h⟩
    · rintro ⟨a, t, h1, h2⟩
      obtain ⟨ha, ht⟩ := List.append_eq_nil.mp h1
      subst ha; subst ht; exact h2
  | cons c cs ih =>
    simp only [firstSome]
    cases hh : here (c :: cs) with
    | some r =>
      simp only [Option.isSome_some, true_iff]
      exact ⟨[], c :: cs, rfl, by simp [hh]⟩
    | none =>
      rw [ih]
      constructor
      · rintro ⟨a, t, h1, h2⟩
        exact ⟨c :: a, t, by simp [h1], h2⟩
      · rintro ⟨a, t, h1, h2⟩
        cases a with
        | nil =>
          simp only [List.nil_append] at h1
          rw [h1, hh] at h2
          simp at h2
        | cons x xs =>
          simp only [List.cons_append, List.cons_eq_cons] at h1
          exact ⟨xs, t, h1.2, h2⟩

theorem orElse_isSome {α : Type} (a : Option α) (f : Unit → Option α) :
    (a.orElse f).isSome = (a.isSome || (f ()).isSome) := by
  cases a <;> rfl

theorem containsTok_iff (pat : Str) :
    ∀ s : Str, containsTok pat s = true ↔ ∃ u v, s = u ++ pat ++ v := by
  intro s
  induction s with
  | nil =>
    simp only [containsTok]
    rw [List.isPrefixOf_iff_prefix]
    constructor
    · intro h
      obtain ⟨v, hv⟩ := h
      exact ⟨[], v, by simp [hv.symm]⟩
    · rintro ⟨u, v, h⟩
      have h2 : u ++ (pat ++ v) = [] := by simpa [List.append_assoc] using h.symm
      obtain ⟨hu, h3⟩ := List.append_eq_nil.mp h2
      obtain ⟨hp, hv⟩ := List.append_eq_nil.mp h3
      exact ⟨v, by simp [hp, hv]⟩
  | cons c cs ih =>
    simp only [containsTok, Bool.or_eq_true]
    rw [List.isPrefixOf_iff_prefix, ih]
    constructor
    · rintro (⟨v, hv⟩ | ⟨u, v, huv⟩)
      · exact ⟨[], v, by simp [hv.symm]⟩
      · exact ⟨c :: u, v, by simp [huv]⟩
    · rintro ⟨u, v, huv⟩
      cases u with
      | nil =>
        left
        exact ⟨v, by simpa using huv.symm⟩
      | cons x xs =>
        right
        simp only [List.cons_append, List.cons_eq_cons] at huv
        exact ⟨xs, v, huv.2⟩

theorem dropWhile_all_append {α : Type} (p : α → Bool) (w l : List α)
    (h : ∀ c ∈ w, p c = true) : List.dropWhile p (w ++ l) = List.dropWhile p l := by
  induction w with
  | nil => rfl
  | cons d ds ih =>
    rw [List.cons_append, List.dropWhile_cons_of_pos (h d (List.mem_cons_self d ds))]
    exact ih fun c hc => h c (List.mem_cons_of_mem d hc)

/-! ### The post-generation safety filter, specified -/

/-- The string contains, case-insensitively, the given (lower-case) token. -/
def ContainsCI (pat : Str) (s : Str) : Prop :=
  ∃ a f b, s = a ++ f ++ b ∧ f.map lowc = pat

/-- The string contains, case-insensitively, `fetch`, then optional
whitespace, then an opening parenthesis: the construct `fetch\s*\(`. -/
def FetchCall (s : Str) : Prop :=
  ∃ a f w g b, s = a ++ f ++ w ++ g ++ b ∧ f.map lowc = "fetch".data ∧
    (∀ c ∈ w, jsWs c = true) ∧ g.map lowc = "(".data

/-- The string contains a network-call construct: a fetch-style call, an
`XMLHttpRequest`, or a `$.ajax` call. -/
def NetConstruct (s : Str) : Prop :=
  FetchCall s ∨ ContainsCI "xmlhttprequest".data s ∨ ContainsCI "$.ajax".data s

/-- The string contains at least one credential/identity-sensitive keyword
among api, auth, token, session, identify, internal, private. -/
def SensitiveKw (s : Str) : Prop :=
  ContainsCI "api".data s ∨ ContainsCI "auth".data s ∨
  ContainsCI "token".data s ∨ ContainsCI "session".data s ∨
  ContainsCI "identify".data s ∨ ContainsCI "internal".data s ∨
  ContainsCI "private".data s

theorem exists_anchor_lit (p s : Str) :
    (∃ a t, a ++ t = s ∧ (litCI p t).isSome = true) ↔ ContainsCI p s := by
  constructor
  · rintro ⟨a, t, h1, h2⟩
    obtain ⟨f, r, hfr, hf⟩ := (litCI_isSome_iff p t).mp h2
    exact ⟨a, f, r, by rw [← h1, hfr, List.append_assoc], hf⟩
  · rintro ⟨a, f, b, h1, h2⟩
    exact ⟨a, f ++ b, by rw [h1, List.append_assoc],
      (litCI_isSome_iff p (f ++ b)).mpr ⟨f, b, rfl, h2⟩⟩

theorem singleton_of_map_lparen {g : Str} (h : g.map lowc = "(".data) :
    ∃ x, g = [x] ∧ lowc x = '(' := by
  cases g with
  | nil => simp at h
  | cons x xs =>
    cases xs with
    | nil => exact ⟨x, rfl, by simpa using h⟩
    | cons y ys => simp [show "(".data = ['('] from rfl] at h

theorem fetchHere_isSome_iff (t : Str) :
    (fetchHere t).isSome = true ↔
      ∃ f w g b, t = f ++ w ++ g ++ b ∧ f.map lowc = "fetch".data ∧
        (∀ c ∈ w, jsWs c = true) ∧ g.map lowc = "(".data := by
  unfold fetchHere
  constructor
  · intro h
    cases h1 : litCI "fetch".data t with
    | none => rw [h1] at h; simp at h
    | some r =>
      rw [h1] at h
      have h' : (litCI "(".data (List.dropWhile jsWs r)).isSome = true := h
      obtain ⟨f, hfr, hf⟩ := (litCI_some_iff _ t r).mp h1
      obtain ⟨g, r2, hgr, hg⟩ := (litCI_isSome_iff _ _).mp h'
      obtain ⟨w2, hw2, hr2⟩ :
          ∃ w2, (∀ c ∈ w2, jsWs c = true) ∧ r = w2 ++ (g ++ r2) := by
        refine ⟨r.takeWhile jsWs, fun c hc => List.mem_takeWhile_imp hc, ?_⟩
        conv_lhs => rw [← List.takeWhile_append_dropWhile (p := jsWs) (l := r)]
        rw [hgr]
      exact ⟨f, w2, g, r2, by rw [hfr, hr2]; simp [List.append_assoc], hf, hw2, hg⟩
  · rintro ⟨f, w, g, b, ht, hf, hw, hg⟩
    obtain ⟨x, hgx, hx⟩ := singleton_of_map_lparen hg
    subst hgx
    have h1 : litCI "fetch".data t = some (w ++ [x] ++ b) := by
      rw [litCI_some_iff]
      exact ⟨f, by rw [ht]; simp [List.append_assoc], hf⟩
    rw [h1]
    show (litCI "(".data (List.dropWhile jsWs (w ++ [x] ++ b))).isSome = true
    have hxws : jsWs x = false := by
      have h3 := jsWs_lowc x
      rw [hx] at h3
      rw [← h3]
      decide
    have h2 : (w ++ [x] ++ b).dropWhile jsWs = x :: b := by
      rw [List.append_assoc, dropWhile_all_append jsWs w ([x] ++ b) hw]
      rw [List.singleton_append, List.dropWhile_cons_of_neg (by simp [hxws])]
    rw [h2]
    simp [litCI, hx]

theorem netTest_iff (s : Str) : netTest s = true ↔ NetConstruct s := by
  unfold netTest
  rw [firstSome_isSome_iff]
  unfold NetConstruct
  rw [← exists_anchor_lit "xmlhttprequest".data s, ← exists_anchor_lit "$.ajax".data s]
  have hsplit : ∀ t : Str, (netHere t).isSome = true ↔
      (fetchHere t).isSome = true ∨ (litCI "xmlhttprequest".data t).isSome = true ∨
        (litCI "$.ajax".data t).isSome = true := by
    intro t
    unfold netHere
    rw [orElse_isSome, orElse_isSome]
    simp [Bool.or_eq_true]
  constructor
  · rintro ⟨a, t, h1, h2⟩
    rcases (hsplit t).mp h2 with h | h | h
    · left
      obtain ⟨f, w, g, b, ht, hf, hw, hg⟩ := (fetchHere_isSome_iff t).mp h
      exact ⟨a, f, w, g, b, by rw [← h1, ht]; simp [List.append_assoc], hf, hw, hg⟩
    · exact Or.inr (Or.inl ⟨a, t, h1, h⟩)
    · exact Or.inr (Or.inr ⟨a, t, h1, h⟩)
  · rintro (⟨a, f, w, g, b, ht, hf, hw, hg⟩ | ⟨a, t, h1, h⟩ | ⟨a, t, h1, h⟩)
    · refine ⟨a, f ++ w ++ g ++ b, by rw [ht]; simp [List.append_assoc], ?_⟩
      rw [hsplit]
      exact Or.inl ((fetchHere_isSome_iff _).mpr ⟨f, w, g, b, by simp [List.append_assoc], hf, hw, hg⟩)
    · exact ⟨a, t, h1, (hsplit t).mpr (Or.inr (Or.inl h))⟩
    · exact ⟨a, t, h1, (hsplit t).mpr (Or.inr (Or.inr h))⟩

theorem kwTest_iff (s : Str) : kwTest s = true ↔ SensitiveKw s := by
  unfold kwTest
  rw [firstSome_isSome_iff]
  unfold SensitiveKw
  rw [← exists_anchor_lit "api".data s, ← exists_anchor_lit "auth".data s,
      ← exists_anchor_lit "token".data s, ← exists_anchor_lit "session".data s,
      ← exists_anchor_lit "identify".data s, ← exists_anchor_lit "internal".data s,
      ← exists_anchor_lit "private".data s]
  have hsplit : ∀ t : Str, (kwHere t).isSome = true ↔
      (litCI "api".data t).isSome = true ∨ (litCI "auth".data t).isSome = true ∨
      (litCI "token".data t).isSome = true ∨ (litCI "session".data t).isSome = true ∨
      (litCI "identify".data t).isSome = true ∨ (litCI "internal".data t).isSome = true ∨
      (litCI "private".data t).isSome = true := by
    intro t
    unfold kwHere
    rw [orElse_isSome, orElse_isSome, orElse_isSome, orElse_isSome, orElse_isSome,
      orElse_isSome]
    simp [Bool.or_eq_true]
  constructor
  · rintro ⟨a, t, h1, h2⟩
    rcases (hsplit t).mp h2 with h | h | h | h | h | h | h
    · exact Or.inl ⟨a, t, h1, h⟩
    · exact Or.inr (Or.inl ⟨a, t, h1, h⟩)
    · exact Or.inr (Or.inr (Or.inl ⟨a, t, h1, h⟩))
    · exact Or.inr (Or.inr (Or.inr (Or.inl ⟨a, t, h1, h⟩)))
    · exact Or.inr (Or.inr (Or.inr (Or.inr (Or.inl ⟨a, t, h1, h⟩))))
    · exact Or.inr (Or.inr (Or.inr (Or.inr (Or.inr (Or.inl ⟨a, t, h1, h⟩)))))
    · exact Or.inr (Or.inr (Or.inr (Or.inr (Or.inr (Or.inr ⟨a, t, h1, h⟩)))))
  · rintro (⟨a, t, h1, h⟩ | ⟨a, t, h1, h⟩ | ⟨a, t, h1, h⟩ | ⟨a, t, h1, h⟩ |
      ⟨a, t, h1, h⟩ | ⟨a, t, h1, h⟩ | ⟨a, t, h1, h⟩)
    · exact ⟨a, t, h1, (hsplit t).mpr (Or.inl h)⟩
    · exact ⟨a, t, h1, (hsplit t).mpr (Or.inr (Or.inl h))⟩
    · exact ⟨a, t, h1, (hsplit t).mpr (Or.inr (Or.inr (Or.inl h)))⟩
    · exact ⟨a, t, h1, (hsplit t).mpr (Or.inr (Or.inr (Or.inr (Or.inl h))))⟩
    · exact ⟨a, t, h1, (hsplit t).mpr (Or.inr (Or.inr (Or.inr (Or.inr (Or.inl h)))))⟩
    · exact ⟨a, t, h1, (hsplit t).mpr (Or.inr (Or.inr (Or.inr (Or.inr (Or.inr (Or.inl h))))))⟩
    · exact ⟨a, t, h1, (hsplit t).mpr (Or.inr (Or.inr (Or.inr (Or.inr (Or.inr (Or.inr h))))))⟩

/-! ### Character counts through the clean-up steps -/

/-- Opening and closing brace characters. -/
def lbraceC : Char := Char.ofNat 123

def rbraceC : Char := Char.ofNat 125

theorem count_collapseAux (c : Char) (hc : jsWs c = false) :
    ∀ (b : Bool) (l : Str), List.count c (collapseAux b l) = List.count c l := by
  intro b l
  induction l generalizing b with
  | nil => rfl
  | cons d ds ih =>
    by_cases hd : jsWs d
    · have hdc : ¬ d = c := fun he => by rw [he] at hd; rw [hd] at hc; cases hc
      have hspc : ¬ (' ' : Char) = c := fun he => by
        rw [← he] at hc
        exact absurd hc (by decide)
      cases b with
      | true =>
        have hstep : collapseAux true (d :: ds) = collapseAux true ds := by
          simp [collapseAux, hd]
        rw [hstep, ih true, List.count_cons, if_neg (by simpa using hdc)]
        simp
      | false =>
        have hstep : collapseAux false (d :: ds) = ' ' :: collapseAux true ds := by
          simp [collapseAux, hd]
        rw [hstep, List.count_cons, List.count_cons, ih true,
          if_neg (by simpa using hspc), if_neg (by simpa using hdc)]
    · have hstep : ∀ b2, collapseAux b2 (d :: ds) = d :: collapseAux false ds := by
        intro b2; simp [collapseAux, hd]
      rw [hstep b, List.count_cons, List.count_cons, ih false]

theorem count_replNl (c : Char) (hnl : ¬ c = '\n') (hsp : ¬ c = ' ') (l : Str) :
    List.count c (replNl l) = List.count c l := by
  induction l with
  | nil => rfl
  | cons d ds ih =>
    show List.count c ((if d = '\n' then ' ' else d) :: replNl ds) = _
    by_cases hd : d = '\n'
    · rw [if_pos hd, List.count_cons, List.count_cons, ih,
        if_neg (by simpa using fun he => hsp he.symm),
        if_neg (by simpa using fun he => hnl (he.symm.trans hd))]
    · rw [if_neg hd, List.count_cons, List.count_cons, ih]

theorem count_collapse_replNl (c : Char) (hws : jsWs c = false) (hnl : ¬ c = '\n')
    (l : Str) : List.count c (collapseWs (replNl l)) = List.count c l := by
  have hsp : ¬ c = ' ' := fun he => by
    rw [he] at hws
    exact absurd hws (by decide)
  rw [collapseWs, count_collapseAux c hws false (replNl l), count_replNl c hnl hsp l]

/-! ### Small evaluation facts used across the claim proofs -/

theorem auditFlags_nil : auditFlags [] = false := by decide

theorem extractCode_eq_self (code0 : Str)
    (h1 : protoLit.isPrefixOf code0 = false)
    (h2 : patternLoop code0 = none)
    (h3 : firstSome cbHere code0 = none) :
    extractCode code0 = code0 := by
  unfold extractCode
  rw [if_neg (by simp [h1]), h2]
  show extractStep2 code0 = code0
  unfold extractStep2
  rw [if_neg (by simp [h1]), h3]

/-! ### Claim theorems -/

/-- Claim C1, counterexample: the reply `"hello world"` matches no
extraction rule (no structural pattern, no fenced block, no protocol-literal
start), yet the `/generate` response carries the raw reply itself as `code`:
an artifact-like value is present and does not begin with `javascript:`,
refuting both the prefix part and the nothing-matches-no-artifact part of
the claim. -/
theorem c1_nothing_matches_counterexample :
    patternLoop "hello world".data = none ∧
    firstSome cbHere "hello world".data = none ∧
    protoLit.isPrefixOf "hello world".data = false ∧
    (generateHandleReply "hello world".data).code = "hello world".data ∧
    ¬ (generateHandleReply "hello world".data).code = [] ∧
    protoLit.isPrefixOf (generateHandleReply "hello world".data).code = false := by
  refine ⟨by decide, by decide, by decide, by decide, by decide, by decide⟩

/-- Claim C1, amended: the `/generate` artifact is always fully normalized
(every whitespace character is a single space and no two whitespace
characters are adjacent, hence a single line with no run of more than one
consecutive whitespace); but when no extraction rule matches (no sentinel,
no protocol-literal start, no structural pattern, no fenced block, filter
not triggered), the response carries the normalized raw reply as `code`
rather than no artifact. -/
theorem c1_generate_artifact_amended (content : Str) :
    wsOnlySpace (generateHandleReply content).code ∧
    noAdjWs (generateHandleReply content).code ∧
    ((trimJs content == sentinelTok || containsTok sentinelTok (trimJs content)) = false →
      protoLit.isPrefixOf (trimJs content) = false →
      patternLoop (trimJs content) = none →
      firstSome cbHere (trimJs content) = none →
      auditFlags (cleanup (trimJs content)) = false →
      (generateHandleReply content).code = cleanup (trimJs content)) := by
  unfold generateHandleReply
  by_cases hs : (trimJs content == sentinelTok ||
      containsTok sentinelTok (trimJs content)) = true
  · rw [if_pos hs]
    refine ⟨fun c hc => absurd hc (List.not_mem_nil c), List.chain'_nil, ?_⟩
    intro h1
    rw [hs] at h1
    cases h1
  · rw [if_neg hs]
    by_cases ha : auditFlags (cleanup (extractCode (trimJs content))) = true
    · rw [if_pos ha]
      refine ⟨fun c hc => absurd hc (List.not_mem_nil c), List.chain'_nil, ?_⟩
      intro h1 h2 h3 h4 h5
      rw [extractCode_eq_self (trimJs content) h2 h3 h4] at ha
      rw [ha] at h5
      cases h5
    · rw [if_neg ha]
      refine ⟨cleanup_wsOnly _, cleanup_chain _, ?_⟩
      intro h1 h2 h3 h4 h5
      show cleanup (extractCode (trimJs content)) = cleanup (trimJs content)
      rw [extractCode_eq_self (trimJs content) h2 h3 h4]

/-- Claim C1, witness: the amended theorem applied to the `"hello world"`
reply, every hypothesis discharged by evaluation. -/
theorem c1_witness :
    (generateHandleReply "hello world".data).code =
      cleanup (trimJs "hello world".data) :=
  (c1_generate_artifact_amended "hello world".data).2.2
    (by decide) (by decide) (by decide) (by decide) (by decide)

/-- Claim C2, counterexample: the conversational `/chat` flow performs no
sentinel check at all; a reply that contains the sentinel token alongside a
fenced bookmarklet still yields `hasCode = true` and a non-empty extracted
artifact, so refusal does not take priority over extraction in that policy
variant. -/
theorem c2_chat_sentinel_counterexample :
    (∃ u v, "SITE_SPECIFIC_REQUEST ```javascript\njavascript:alert(1)\n```".data =
      u ++ sentinelTok ++ v) ∧
    (chatHandleReply
      "SITE_SPECIFIC_REQUEST ```javascript\njavascript:alert(1)\n```".data).hasCode = true ∧
    (chatHandleReply
      "SITE_SPECIFIC_REQUEST ```javascript\njavascript:alert(1)\n```".data).code =
      "javascript:alert(1)".data := by
  refine ⟨⟨[], " ```javascript\njavascript:alert(1)\n```".data, by decide⟩,
    by decide, by decide⟩

/-- Claim C2, amended: in the single-shot `/generate` flow, a reply that
equals or merely contains the sentinel token yields `siteSpecific = true`
and an empty `code`, regardless of any extraction pattern that also
matches; the conversational `/chat` flow has no sentinel check. -/
theorem c2_generate_sentinel_amended (content : Str)
    (h : ∃ u v, trimJs content = u ++ sentinelTok ++ v) :
    generateHandleReply content = ⟨[], true⟩ := by
  obtain ⟨u, v, huv⟩ := h
  have hc : containsTok sentinelTok (trimJs content) = true :=
    (containsTok_iff sentinelTok (trimJs content)).mpr ⟨u, v, huv⟩
  unfold generateHandleReply
  rw [if_pos (by rw [hc]; simp)]

/-- Claim C2, witness: a reply that is exactly the sentinel is refused with
empty code. -/
theorem c2_witness :
    generateHandleReply "SITE_SPECIFIC_REQUEST".data = ⟨[], true⟩ :=
  c2_generate_sentinel_amended "SITE_SPECIFIC_REQUEST".data ⟨[], [], by decide⟩

/-- Claim C3: the post-generation safety filter flags an artifact exactly
when it contains both a network-call construct (fetch-style call,
XMLHttpRequest, or $.ajax, case-insensitively) and at least one
credential/identity-sensitive keyword among api, auth, token, session,
identify, internal, private — a conjunction, so either half alone does not
flag. -/
theorem c3_filter_conjunctive (s : Str) :
    auditFlags s = true ↔ NetConstruct s ∧ SensitiveKw s := by
  unfold auditFlags
  rw [Bool.and_eq_true, netTest_iff, kwTest_iff]

/-- Claim C3, witness: the characterization applied at `"fetch(api)"`,
whose network construct and sensitive keyword are exhibited explicitly. -/
theorem c3_witness : auditFlags "fetch(api)".data = true :=
  (c3_filter_conjunctive "fetch(api)".data).mpr
    ⟨Or.inl ⟨[], "fetch".data, [], "(".data, "api)".data, by decide, by decide,
      by decide, by decide⟩,
     Or.inl ⟨"fetch(".data, "api".data, ")".data, by decide, by decide⟩⟩

/-- Claim C4, counterexample: a reply holding both a language-tagged fenced
block (content `javascript:realThing`) and an earlier stray bare token
`javascript:stray` in prose; the fenced-code pattern matches the reply, yet
the returned artifact is the stray bare token, not the fenced content — the
structural patterns run before the fenced-block extraction. -/
theorem c4_fenced_priority_counterexample :
    firstSome cbHere
      "Try javascript:stray first.\n```javascript\njavascript:realThing\n```".data =
      some "javascript:realThing\n".data ∧
    patternLoop
      "Try javascript:stray first.\n```javascript\njavascript:realThing\n```".data =
      some "javascript:stray".data ∧
    (generateHandleReply
      "Try javascript:stray first.\n```javascript\njavascript:realThing\n```".data).code =
      "javascript:stray".data ∧
    ¬ "javascript:stray".data = "javascript:realThing".data := by
  refine ⟨by decide, by decide, by decide, by decide⟩

/-- Claim C4, amended: the structural patterns are applied before the
fenced-block extraction; whenever the reply does not itself start with the
protocol literal and the pattern loop produces a match that does, that
match is the extraction result and any fenced block is ignored. -/
theorem c4_structural_before_fenced_amended (code0 m : Str)
    (h1 : protoLit.isPrefixOf code0 = false)
    (h2 : patternLoop code0 = some m)
    (h3 : protoLit.isPrefixOf m = true) :
    extractCode code0 = m := by
  unfold extractCode
  rw [if_neg (by simp [h1]), h2]
  show extractStep2 m = m
  unfold extractStep2
  rw [if_pos h3]

/-- Claim C4, witness: the amended priority applied to the counterexample
reply. -/
theorem c4_witness :
    extractCode
      "Try javascript:stray first.\n```javascript\njavascript:realThing\n```".data =
      "javascript:stray".data :=
  c4_structural_before_fenced_amended _ _ (by decide) (by decide) (by decide)

/-- Claim C5, counterexample: a bare statement `alert('hi')` with no fence
and no prefix matches no extraction rule and is returned unchanged — it is
not wrapped into the self-invoking-function template. -/
theorem c5_bare_statement_counterexample :
    generateHandleReply "alert(\x27hi\x27)".data =
      ⟨"alert(\x27hi\x27)".data, false⟩ ∧
    ¬ "alert(\x27hi\x27)".data =
      "javascript:(function()\x7balert(\x27hi\x27)\x7d)();".data := by
  refine ⟨by decide, by decide⟩

/-- Claim C5, amended: the wrap only applies to fenced content: when the
provider returns `alert('hi')` inside a plain fenced code block, the
artifact is exactly `javascript:(function(){alert('hi')})();`; when it
returns the bare statement unfenced, the reply is passed through
unchanged. -/
theorem c5_wrap_amended :
    generateHandleReply "```\nalert(\x27hi\x27)\n```".data =
      ⟨"javascript:(function()\x7balert(\x27hi\x27)\x7d)();".data, false⟩ ∧
    generateHandleReply "alert(\x27hi\x27)".data =
      ⟨"alert(\x27hi\x27)".data, false⟩ := by
  refine ⟨by decide, by decide⟩

/-- Claim C6, counterexample: a single-shot `/generate` request with a
missing prompt is not rejected: the handler proceeds to the network section
(the trigger regex is evaluated against the coerced string `"undefined"`,
which matches no trigger word), so no `InvalidRequest` is produced before
the network call. -/
theorem c6_generate_no_validation_counterexample :
    genPre none = PreOutcome.networkCompletion false ∧
    ¬ genPre none = PreOutcome.invalidRequest := by
  refine ⟨by decide, by decide⟩

/-- Claim C6, amended: the conversational `/chat` handler rejects a missing
or empty message list with an `InvalidRequest` failure before any network
call and otherwise proceeds to the network section; the single-shot
`/generate` handler performs no prompt-presence validation and always
proceeds to the network section. -/
theorem c6_validation_amended :
    chatPre none = PreOutcome.invalidRequest ∧
    chatPre (some []) = PreOutcome.invalidRequest ∧
    (∀ m ms, ∃ b, chatPre (some (m :: ms)) = PreOutcome.networkCompletion b) ∧
    (∀ p, ∃ b, genPre p = PreOutcome.networkCompletion b) :=
  ⟨rfl, rfl, fun _ _ => ⟨_, rfl⟩, fun _ => ⟨_, rfl⟩⟩

/-- Claim C7: the search augmenter absorbs every transport or parse failure
into the fixed fallback string, maps an absent or empty result list to the
distinct fixed no-results string, and in every case returns a plain string
(it is a total function into strings, so generation proceeds). -/
theorem c7_search_best_effort :
    searchGoogle SearchFetch.throws = searchFailText ∧
    searchGoogle (SearchFetch.returns none) = searchEmptyText ∧
    searchGoogle (SearchFetch.returns (some [])) = searchEmptyText ∧
    ¬ searchFailText = searchEmptyText :=
  ⟨rfl, rfl, rfl, by decide⟩

/-- Claim C8: the clean-up normalization (replace line breaks by spaces,
collapse whitespace runs to one space, trim) is idempotent. -/
theorem c8_normalization_idempotent (s : Str) :
    cleanup (cleanup s) = cleanup s := cleanup_idem s

/-- Claim C9: for every input to the wrapping step that does not start with
the protocol literal, the wrapped output starts with the protocol literal,
contains the whitespace-collapsed input verbatim as a contiguous segment,
and adds exactly one opening and one closing brace (so the wrapper's braces
are balanced around a balanced body). -/
theorem c9_wrap_roundtrip (e : Str) (_h : protoLit.isPrefixOf e = false) :
    (∃ t, wrapBookmarklet e = protoLit ++ t) ∧
    (∃ u v, wrapBookmarklet e = u ++ collapseWs (replNl e) ++ v) ∧
    List.count lbraceC (wrapBookmarklet e) = List.count lbraceC e + 1 ∧
    List.count rbraceC (wrapBookmarklet e) = List.count rbraceC e + 1 := by
  refine ⟨⟨"(function()\x7b".data ++ (collapseWs (replNl e) ++ "\x7d)();".data), ?_⟩,
    ⟨"javascript:(function()\x7b".data, "\x7d)();".data, rfl⟩, ?_, ?_⟩
  · show "javascript:(function()\x7b".data ++ collapseWs (replNl e) ++
      "\x7d)();".data = _
    rw [show "javascript:(function()\x7b".data =
      protoLit ++ "(function()\x7b".data by decide]
    simp [List.append_assoc]
  · unfold wrapBookmarklet
    rw [List.count_append, List.count_append,
      count_collapse_replNl lbraceC (by decide) (by decide),
      show List.count lbraceC "javascript:(function()\x7b".data = 1 by decide,
      show List.count lbraceC "\x7d)();".data = 0 by decide]
    omega
  · unfold wrapBookmarklet
    rw [List.count_append, List.count_append,
      count_collapse_replNl rbraceC (by decide) (by decide),
      show List.count rbraceC "javascript:(function()\x7b".data = 0 by decide,
      show List.count rbraceC "\x7d)();".data = 1 by decide]
    omega

/-- Claim C9, witness: the round-trip applied to the statement
`alert(1)`. -/
theorem c9_witness :
    protoLit.isPrefixOf "alert(1)".data = false ∧
    ((∃ t, wrapBookmarklet "alert(1)".data = protoLit ++ t) ∧
    (∃ u v, wrapBookmarklet "alert(1)".data =
      u ++ collapseWs (replNl "alert(1)".data) ++ v) ∧
    List.count lbraceC (wrapBookmarklet "alert(1)".data) =
      List.count lbraceC "alert(1)".data + 1 ∧
    List.count rbraceC (wrapBookmarklet "alert(1)".data) =
      List.count rbraceC "alert(1)".data + 1) :=
  ⟨by decide, c9_wrap_roundtrip "alert(1)".data (by decide)⟩

/-- Claim C10: only `/generate` artifacts pass through the post-generation
filter: whenever the `/chat` extraction yields code that the filter would
flag, the chat response still returns it (`hasCode = true`, non-empty
code), while in `/generate` a non-refused reply whose extracted artifact is
flagged is replaced by the empty-code `siteSpecific` refusal. -/
theorem c10_chat_unfiltered :
    (∀ reply, auditFlags (chatHandleReply reply).code = true →
      (chatHandleReply reply).hasCode = true ∧
        ¬ (chatHandleReply reply).code = []) ∧
    (∀ content,
      (trimJs content == sentinelTok ||
        containsTok sentinelTok (trimJs content)) = false →
      auditFlags (cleanup (extractCode (trimJs content))) = true →
      generateHandleReply content = ⟨[], true⟩) := by
  constructor
  · intro reply h
    cases hm : firstSome chatHere reply with
    | none =>
      rw [show chatHandleReply reply = ⟨reply, false, []⟩ by
        unfold chatHandleReply; rw [hm]] at h
      exact absurd h (by rw [auditFlags_nil]; simp)
    | some g =>
      rw [show chatHandleReply reply = ⟨reply, true, cleanup g⟩ by
        unfold chatHandleReply; rw [hm]] at h ⊢
      refine ⟨rfl, fun hnil => ?_⟩
      have h2 : auditFlags (cleanup g) = true := h
      have hnil2 : cleanup g = [] := hnil
      rw [hnil2, auditFlags_nil] at h2
      cases h2
  · intro content h1 h2
    unfold generateHandleReply
    rw [if_neg (by simp [h1]), if_pos h2]

/-- Claim C10, witness: a chat reply whose fenced bookmarklet contains both
a fetch call and the keyword `api` — the filter would flag it, yet the chat
flow returns it. -/
theorem c10_witness :
    auditFlags (chatHandleReply "```javascript\njavascript:fetch(api)\n```".data).code =
      true ∧
    (chatHandleReply "```javascript\njavascript:fetch(api)\n```".data).hasCode = true ∧
    ¬ (chatHandleReply "```javascript\njavascript:fetch(api)\n```".data).code = [] :=
  ⟨by decide,
   (c10_chat_unfiltered.1 "```javascript\njavascript:fetch(api)\n```".data (by decide)).1,
   (c10_chat_unfiltered.1 "```javascript\njavascript:fetch(api)\n```".data (by decide)).2⟩

end Seltra
